import Mathlib

/-!
Verification of the alpacabot trading core: the expiring cache
(`cache_manager.py`) and the watchlist/holdings position lifecycle engine
(`trading_bot.py`), embedded shallowly.  Python dicts become association
lists over `String` keys (preserving insertion order, as Python dicts do),
machine floats become `ℚ`, wall-clock time is an explicit parameter, and
the external collaborators (brokerage data client, trading client) are
oracles supplied through an environment record.
-/

namespace AlpacaBot

/-! ### Association lists modelling Python dicts

A Python `dict` with string keys is modelled as a `List (String × β)` whose
keys are unique on all reachable states.  `d[k] = v` on a fresh key appends
(Python insertion order), on an existing key overwrites in place;
`del d[k]` removes the binding. -/

def lookupKey {β : Type} (k : String) : List (String × β) → Option β
  | [] => none
  | (j, v) :: t => if j = k then some v else lookupKey k t

def containsKey {β : Type} (k : String) (l : List (String × β)) : Bool :=
  (lookupKey k l).isSome

def insertKey {β : Type} (k : String) (v : β) : List (String × β) → List (String × β)
  | [] => [(k, v)]
  | (j, w) :: t => if j = k then (j, v) :: t else (j, w) :: insertKey k v t

def eraseKey {β : Type} (k : String) : List (String × β) → List (String × β)
  | [] => []
  | (j, w) :: t => if j = k then t else (j, w) :: eraseKey k t

def keysOf {β : Type} (l : List (String × β)) : List String :=
  l.map (fun p => p.1)

def countKey {β : Type} (k : String) (l : List (String × β)) : ℕ :=
  (keysOf l).count k

/-! ### Expiring cache (`cache_manager.py`)

The `CacheManager` object is embedded as a `CacheState`: `cache` is the
in-memory dict `self.cache`, `disk` is the durable copy written by
`save_cache` (file IO is modelled as this second map; write errors are not
modelled), and `enabled` is `self.enabled = config.ENABLE_CACHING`.  The
wall clock is explicit: `Clock.time` stands for `time.time()` and
`Clock.weekday` / `Clock.hour` for the fields of `datetime.now()` consulted
by `is_market_hours`.  The stored values are a type parameter `α` (the code
stores arbitrary JSON-serializable objects). -/

structure CacheConfig where
  PRICE_CACHE_EXPIRY : ℚ
  HISTORY_CACHE_EXPIRY : ℚ
  FILTER_CACHE_EXPIRY : ℚ
  CACHE_MARKET_CLOSED_MULTIPLIER : ℚ
deriving DecidableEq

structure Clock where
  weekday : ℕ
  hour : ℕ
  time : ℚ
deriving DecidableEq

structure CacheEntry (α : Type) where
  data : α
  timestamp : ℚ
deriving DecidableEq

structure CacheState (α : Type) where
  enabled : Bool
  cache : List (String × CacheEntry α)
  disk : List (String × CacheEntry α)
deriving DecidableEq

namespace CacheManager

/-- Embeds `CacheManager.is_market_hours`: weekday 0–4 (Monday–Friday) and
local hour in `[9, 16)`. -/
def is_market_hours (clk : Clock) : Bool :=
  if clk.weekday ≥ 5 then false
  else decide (9 ≤ clk.hour ∧ clk.hour < 16)

/-- Embeds Python's `str.strip(":")`: drop leading and trailing colons. -/
def stripColons (s : String) : String :=
  String.mk (((s.data.dropWhile (fun c => c = ':')).reverse.dropWhile
    (fun c => c = ':')).reverse)

/-- Embeds `CacheManager.get_cache_key`. -/
def get_cache_key (pre symbol params : String) : String :=
  stripColons (pre ++ ":" ++ symbol ++ ":" ++ params)

/-- Expiry selection in `CacheManager.is_expired`: the if/elif chain on the
category string; an unrecognized category falls back to the price expiry. -/
def expiry_base (cfg : CacheConfig) (cache_type : String) : ℚ :=
  if cache_type = "price" then cfg.PRICE_CACHE_EXPIRY
  else if cache_type = "history" then cfg.HISTORY_CACHE_EXPIRY
  else if cache_type = "filter" then cfg.FILTER_CACHE_EXPIRY
  else cfg.PRICE_CACHE_EXPIRY

/-- Embeds `CacheManager.is_expired`. -/
def is_expired {α : Type} (cfg : CacheConfig) (clk : Clock) (st : CacheState α)
    (timestamp : ℚ) (cache_type : String) : Bool :=
  if st.enabled = false then true
  else
    let expiry0 := expiry_base cfg cache_type
    let expiry := if is_market_hours clk then expiry0
      else expiry0 * cfg.CACHE_MARKET_CLOSED_MULTIPLIER
    decide (clk.time - timestamp > expiry)

/-- Embeds `CacheManager.get`: returns the stored value if present and
fresh; evicts and reports absent if present and expired. -/
def get {α : Type} (cfg : CacheConfig) (clk : Clock) (key cache_type : String)
    (st : CacheState α) : Option α × CacheState α :=
  if st.enabled = false then (none, st)
  else
    match lookupKey key st.cache with
    | some entry =>
        if is_expired cfg clk st entry.timestamp cache_type = false then
          (some entry.data, st)
        else
          (none, { st with cache := eraseKey key st.cache })
    | none => (none, st)

/-- Embeds `CacheManager.save_cache` (flush the dict to the cache file). -/
def save_cache {α : Type} (st : CacheState α) : CacheState α :=
  if st.enabled = false then st else { st with disk := st.cache }

/-- Embeds `CacheManager.set`: insert/overwrite with the current timestamp,
then flush to disk when `len(self.cache) % 10 == 0`. -/
def set {α : Type} (clk : Clock) (key : String) (data : α) (st : CacheState α) :
    CacheState α :=
  if st.enabled = false then st
  else
    let st1 := { st with cache := insertKey key ⟨data, clk.time⟩ st.cache }
    if st1.cache.length % 10 = 0 then save_cache st1 else st1

/-- Category inference from the key prefix in `CacheManager.clear_expired`. -/
def key_cache_type (key : String) : String :=
  if key.startsWith "history:" then "history"
  else if key.startsWith "filter:" then "filter"
  else "price"

/-- Embeds `CacheManager.clear_expired`: collect the expired keys, delete
them, return the number deleted. -/
def clear_expired {α : Type} (cfg : CacheConfig) (clk : Clock) (st : CacheState α) :
    ℕ × CacheState α :=
  let expired_keys := (st.cache.filter (fun kv =>
      is_expired cfg clk st kv.2.timestamp (key_cache_type kv.1))).map (fun kv => kv.1)
  (expired_keys.length,
    { st with cache := expired_keys.foldl (fun c k => eraseKey k c) st.cache })

/-- Result record of `CacheManager.get_cache_stats`.  The `cache_size_mb`
field of the Python dict (a rounded `len(str(self.cache)) / 2^20`) is not
modelled: it depends on the textual `repr` of the stored objects, which the
abstract value type `α` does not carry.  No claim depends on it. -/
structure CacheStats where
  total_entries : ℕ
  price_entries : ℕ
  history_entries : ℕ
  filter_entries : ℕ
  other_entries : ℤ
  market_open : Bool
deriving DecidableEq

/-- Embeds `CacheManager.get_cache_stats`. -/
def get_cache_stats {α : Type} (clk : Clock) (st : CacheState α) : CacheStats :=
  let total := st.cache.length
  let p := ((keysOf st.cache).filter (fun k => k.startsWith "price:")).length
  let h := ((keysOf st.cache).filter (fun k => k.startsWith "history:")).length
  let f := ((keysOf st.cache).filter (fun k => k.startsWith "filter:")).length
  { total_entries := total
    price_entries := p
    history_entries := h
    filter_entries := f
    other_entries := (total : ℤ) - p - h - f
    market_open := is_market_hours clk }

/-- Embeds `CacheManager.clear_all`: empty the dict, then `save_cache`. -/
def clear_all {α : Type} (st : CacheState α) : CacheState α :=
  save_cache { st with cache := [] }

/-- Boolean form of Python's substring test `needle in hay`. -/
def substrOf (needle hay : String) : Bool :=
  decide (needle.data <:+: hay.data)

/-- Embeds `CacheManager.clear_symbol`: collect the keys containing
`symbol` as a substring, delete each of them.  Note: no `save_cache`. -/
def clear_symbol {α : Type} (symbol : String) (st : CacheState α) : CacheState α :=
  let keys_to_remove := (keysOf st.cache).filter (fun k => substrOf symbol k)
  { st with cache := keys_to_remove.foldl (fun c k => eraseKey k c) st.cache }

end CacheManager

/-! ### Position lifecycle engine (`trading_bot.py`)

The engine's persisted state (watchlist file, holdings file, trades file)
plus the cache manager is a `BotState`.  Each pass loads its file at entry
and rewrites it at exit when it mutated it; cycles are sequential, so the
file contents between passes are exactly this state.  The Alpaca clients
are oracles in `Env`. -/

/-- One OHLCV row of the price-history DataFrame. -/
structure Bar where
  date : String
  openPrice : ℚ
  high : ℚ
  low : ℚ
  close : ℚ
  volume : ℚ
deriving DecidableEq

/-- Price history as the passes see it.  `hasVolume` models whether the
DataFrame has a volume column (the code's `'volume' in hist.columns`). -/
structure Hist where
  bars : List Bar
  hasVolume : Bool
deriving DecidableEq

/-- Values stored in the cache by the bot: prices under `price:*` keys,
history blobs under `history:*` keys, filter results under `filter:*`. -/
inductive CVal where
  | price (p : ℚ)
  | hist (h : Hist)
  | filt (symbols : List String)
deriving DecidableEq

/-- On every reachable state the value under a `price:*` key is a `.price`
(only `get_current_price` writes those keys), so this projection is exact
there; likewise the two below. -/
def CVal.asPrice : CVal → Option ℚ
  | .price p => some p
  | _ => none

def CVal.asHist : CVal → Option Hist
  | .hist h => some h
  | _ => none

def CVal.asFilt : CVal → Option (List String)
  | .filt l => some l
  | _ => none

/-- The trading-relevant fields of `config.py`'s `Config` (the cache fields
are grouped in `cacheCfg`). -/
structure BotConfig where
  MIN_STOCK_PRICE : ℚ
  DROP_THRESHOLD : ℚ
  PROFIT_TARGET : ℚ
  LOOKBACK_DAYS : ℕ
  SP500_SYMBOLS : List String
  cacheCfg : CacheConfig

/-- Analysis record built by `check_drop_criteria` (the `{"error": ...}`
result is modelled as `none` at the call sites). -/
structure DropAnalysis where
  symbol : String
  highest_price : ℚ
  start_price : ℚ
  latest_price : ℚ
  drop_from_high : ℚ
  drop_from_start : ℚ
  days_analyzed : ℕ
  meets_criteria : Bool
deriving DecidableEq

structure WatchEntry where
  added_date : String
  drop_detected_price : Option ℚ
  status : String
  analysis : Option DropAnalysis
deriving DecidableEq

structure HoldEntry where
  buy_price : ℚ
  buy_date : String
  quantity : ℕ
  status : String
  entry_reason : String
  original_analysis : Option DropAnalysis
deriving DecidableEq

structure TradeRecord where
  timestamp : String
  symbol : String
  action : String
  price : ℚ
  quantity : ℕ
deriving DecidableEq

structure BotState where
  cache : CacheState CVal
  watchlist : List (String × WatchEntry)
  holdings : List (String × HoldEntry)
  trades : List TradeRecord
deriving DecidableEq

/-- External collaborators and ambient inputs: configuration, wall clock,
`datetime.now().isoformat()` as `nowIso`, the Alpaca data client
(`dataPrice` = latest close from the last week of daily bars, absent on
empty data / API error / missing client; `dataHistory` = the raw bars for
`get_price_history`), and the trading client (`hasTradingClient`; `buyOk` /
`sellOk` tell whether `submit_order` succeeds for a symbol). -/
structure Env where
  cfg : BotConfig
  clk : Clock
  nowIso : String
  dataPrice : String → Option ℚ
  dataHistory : String → ℕ → Option Hist
  hasTradingClient : Bool
  buyOk : String → Bool
  sellOk : String → Bool

namespace TradingBot

/-- Embeds `TradingBot.get_current_price`: cache lookup under
`price:symbol`, fetch from the data client on a miss, caching a hit. -/
def get_current_price (env : Env) (symbol : String) (cs : CacheState CVal) :
    Option ℚ × CacheState CVal :=
  let key := CacheManager.get_cache_key "price" symbol ""
  let r := CacheManager.get env.cfg.cacheCfg env.clk key "price" cs
  match r.1.bind CVal.asPrice with
  | some p => (some p, r.2)
  | none =>
      match env.dataPrice symbol with
      | some p => (some p, CacheManager.set env.clk key (.price p) r.2)
      | none => (none, r.2)

/-- Embeds `TradingBot.get_price_history`: cache lookup under
`history:symbol:days_n`; on a miss fetch bars and keep them only when at
least 2 rows came back. -/
def get_price_history (env : Env) (symbol : String) (days : ℕ)
    (cs : CacheState CVal) : Option Hist × CacheState CVal :=
  let key := CacheManager.get_cache_key "history" symbol ("days_" ++ toString days)
  let r := CacheManager.get env.cfg.cacheCfg env.clk key "history" cs
  match r.1.bind CVal.asHist with
  | some h => (some h, r.2)
  | none =>
      match env.dataHistory symbol days with
      | some h =>
          if 2 ≤ h.bars.length then
            (some h, CacheManager.set env.clk key (.hist h) r.2)
          else (none, r.2)
      | none => (none, r.2)

/-- Embeds `TradingBot.filter_stocks_above_price`: a single cached blob
keyed by the threshold; on a miss, keep the symbols whose current price is
truthy and above the minimum, then cache the list. -/
def filter_stocks_above_price (env : Env) (symbols : List String)
    (cs : CacheState CVal) : List String × CacheState CVal :=
  let filter_key := CacheManager.get_cache_key "filter"
    ("above_" ++ toString env.cfg.MIN_STOCK_PRICE) ""
  let r := CacheManager.get env.cfg.cacheCfg env.clk filter_key "filter" cs
  match r.1.bind CVal.asFilt with
  | some cached => (cached, r.2)
  | none =>
      let step := fun (acc : List String × CacheState CVal) (symbol : String) =>
        let pr := get_current_price env symbol acc.2
        match pr.1 with
        | some price =>
            if price ≠ 0 ∧ price > env.cfg.MIN_STOCK_PRICE then
              (acc.1 ++ [symbol], pr.2)
            else (acc.1, pr.2)
        | none => (acc.1, pr.2)
      let res := symbols.foldl step ([], r.2)
      (res.1, CacheManager.set env.clk filter_key (.filt res.1) res.2)

/-- Maximum of a rational list (call sites guard nonemptiness, matching the
pandas `.max()` which would raise on an empty frame). -/
def listMax : List ℚ → ℚ
  | [] => 0
  | x :: t => t.foldl max x

def listMin : List ℚ → ℚ
  | [] => 0
  | x :: t => t.foldl min x

/-- Embeds `TradingBot.check_drop_criteria`: requires at least 2 history
rows, computes the drop from the period high and from the period start, and
meets the criteria when `drop_from_high ≥ DROP_THRESHOLD`. -/
def check_drop_criteria (env : Env) (symbol : String) (cs : CacheState CVal) :
    (Bool × Option DropAnalysis) × CacheState CVal :=
  let r := get_price_history env symbol env.cfg.LOOKBACK_DAYS cs
  match r.1 with
  | none => ((false, none), r.2)
  | some hist =>
      if hist.bars.length < 2 then ((false, none), r.2)
      else
        let highest_price := listMax (hist.bars.map (fun b => b.high))
        let latest_price := (hist.bars.map (fun b => b.close)).getLastD 0
        let start_price := (hist.bars.map (fun b => b.close)).headD 0
        let drop_from_high := (highest_price - latest_price) / highest_price
        let drop_from_start := (start_price - latest_price) / start_price
        let analysis : DropAnalysis :=
          { symbol := symbol
            highest_price := highest_price
            start_price := start_price
            latest_price := latest_price
            drop_from_high := drop_from_high * 100
            drop_from_start := drop_from_start * 100
            days_analyzed := hist.bars.length
            meets_criteria := decide (drop_from_high ≥ env.cfg.DROP_THRESHOLD) }
        ((analysis.meets_criteria, some analysis), r.2)

/-- Accessor for `hist['close'].iloc[-1]` in `analyze_entry_signal`. -/
def hist_current_price (hist : Hist) : ℚ :=
  (hist.bars.map (fun b => b.close)).getD (hist.bars.length - 1) 0

/-- Accessor for `hist['close'].iloc[-2]`. -/
def hist_prev_close (hist : Hist) : ℚ :=
  (hist.bars.map (fun b => b.close)).getD (hist.bars.length - 2) 0

/-- Accessor for `hist['volume'].iloc[-1] if 'volume' in hist.columns else 0`. -/
def hist_volume (hist : Hist) : ℚ :=
  if hist.hasVolume then (hist.bars.map (fun b => b.volume)).getD (hist.bars.length - 1) 0
  else 0

/-- Accessor for `hist['volume'].mean() if 'volume' in hist.columns else 0`. -/
def hist_avg_volume (hist : Hist) : ℚ :=
  if hist.hasVolume then (hist.bars.map (fun b => b.volume)).sum / (hist.bars.length : ℚ)
  else 0

/-- The `daily_change = (current_price - prev_close) / prev_close` of line 249. -/
def hist_daily_change (hist : Hist) : ℚ :=
  (hist_current_price hist - hist_prev_close hist) / hist_prev_close hist

/-- Accessor for `hist['low'].min()`. -/
def hist_lowest_recent (hist : Hist) : ℚ :=
  listMin (hist.bars.map (fun b => b.low))

/-- The reasons list built in `TradingBot.analyze_entry_signal` (lines
246–261): `price_stabilizing` when today's change over yesterday's close is
strictly above −0.05, `decent_volume` when the average volume is positive
and today's volume strictly exceeds half of it (both zero when the frame
has no volume column), `above_recent_low` when the current price strictly
exceeds 1.02 times the period low. -/
def entry_reasons (hist : Hist) : List String :=
  let r1 : List String :=
    if hist_daily_change hist > -0.05 then ["price_stabilizing"] else []
  let r2 : List String :=
    if hist_avg_volume hist > 0 ∧ hist_volume hist > hist_avg_volume hist * 0.5 then
      ["decent_volume"]
    else []
  let r3 : List String :=
    if hist_current_price hist > hist_lowest_recent hist * 1.02 then
      ["above_recent_low"]
    else []
  r1 ++ r2 ++ r3

/-- Embeds the body of `TradingBot.analyze_entry_signal` given the history
it fetched: fewer than 3 rows (or no history) reports insufficient recent
data; otherwise entry is authorized when at least 2 reasons were found. -/
def analyze_entry_core (hist : Option Hist) : Bool × String :=
  match hist with
  | none => (false, "Insufficient recent data")
  | some h =>
      if h.bars.length < 3 then (false, "Insufficient recent data")
      else
        let reasons := entry_reasons h
        let enter := decide (2 ≤ reasons.length)
        let reason_text :=
          if enter then "Entry signals: " ++ String.intercalate ", " reasons
          else "Waiting: only " ++ toString reasons.length ++ " signals"
        (enter, reason_text)

/-- Embeds `TradingBot.analyze_entry_signal` (the `drop_analysis` parameter
of the Python method is unused by its body). -/
def analyze_entry_signal (env : Env) (symbol : String) (cs : CacheState CVal) :
    (Bool × String) × CacheState CVal :=
  let r := get_price_history env symbol 5 cs
  (analyze_entry_core r.1, r.2)

/-- Embeds `TradingBot.execute_buy_order`: with a trading client, submit
and report success/failure; without one, log a paper trade and report
success.  The price argument is only logged. -/
def execute_buy_order (env : Env) (symbol : String) (_price : ℚ) : Bool :=
  if env.hasTradingClient then env.buyOk symbol else true

/-- Embeds `TradingBot.execute_sell_order`. -/
def execute_sell_order (env : Env) (symbol : String) (_price : ℚ) : Bool :=
  if env.hasTradingClient then env.sellOk symbol else true

/-- Embeds `TradingBot.log_trade`: the trades file is read, appended to and
rewritten; as threaded state that is an append. -/
def log_trade (env : Env) (symbol action : String) (price : ℚ) (quantity : ℕ)
    (trades : List TradeRecord) : List TradeRecord :=
  trades ++ [{ timestamp := env.nowIso, symbol := symbol, action := action,
               price := price, quantity := quantity }]

/-- Loop state of the buy pass over the watchlist snapshot. -/
structure BuyAcc where
  watchlist : List (String × WatchEntry)
  holdings : List (String × HoldEntry)
  trades : List TradeRecord
  cache : CacheState CVal
  bought_count : ℕ

/-- One iteration of the `try_to_buy` loop (lines 370–398): skip entries
not watching; skip symbols already held; skip when no (truthy) price; on an
authorized entry with a successful order, move the symbol from watchlist to
holdings and log a BUY trade. -/
def try_to_buy_step (env : Env) (acc : BuyAcc) (item : String × WatchEntry) :
    BuyAcc :=
  let symbol := item.1
  let info := item.2
  if info.status = "watching" then
    if containsKey symbol acc.holdings then acc
    else
      let pr := get_current_price env symbol acc.cache
      let acc1 := { acc with cache := pr.2 }
      match pr.1 with
      | none => acc1
      | some current_price =>
          if current_price = 0 then acc1
          else
            let ar := analyze_entry_signal env symbol acc1.cache
            let acc2 := { acc1 with cache := ar.2 }
            if ar.1.1 && execute_buy_order env symbol current_price then
              { acc2 with
                holdings := insertKey symbol
                  { buy_price := current_price, buy_date := env.nowIso,
                    quantity := 1, status := "holding", entry_reason := ar.1.2,
                    original_analysis := info.analysis } acc2.holdings
                watchlist := eraseKey symbol acc2.watchlist
                trades := log_trade env symbol "BUY" current_price 1 acc2.trades
                bought_count := acc2.bought_count + 1 }
            else acc2
  else acc

/-- Embeds `TradingBot.try_to_buy`: fold the loop over the watchlist
snapshot; the watchlist and holdings files are rewritten only when at least
one buy happened (the fold leaves them unchanged otherwise); the trades
file is written eagerly by `log_trade`. -/
def try_to_buy (env : Env) (st : BotState) : BotState :=
  if st.watchlist.isEmpty then st
  else
    let r := st.watchlist.foldl (try_to_buy_step env)
      { watchlist := st.watchlist, holdings := st.holdings, trades := st.trades,
        cache := st.cache, bought_count := 0 }
    if 0 < r.bought_count then
      { cache := r.cache, watchlist := r.watchlist, holdings := r.holdings,
        trades := r.trades }
    else
      { st with cache := r.cache, trades := r.trades }

/-- Loop state of the sell pass. -/
structure SellAcc where
  holdings : List (String × HoldEntry)
  trades : List TradeRecord
  cache : CacheState CVal
  sold_count : ℕ

/-- One iteration of the `try_to_sell` loop (lines 422–441). -/
def try_to_sell_step (env : Env) (acc : SellAcc) (item : String × HoldEntry) :
    SellAcc :=
  let symbol := item.1
  let info := item.2
  if info.status = "holding" then
    let pr := get_current_price env symbol acc.cache
    let acc1 := { acc with cache := pr.2 }
    match pr.1 with
    | none => acc1
    | some current_price =>
        if current_price = 0 then acc1
        else
          let profit_pct := (current_price - info.buy_price) / info.buy_price
          if profit_pct ≥ env.cfg.PROFIT_TARGET then
            if execute_sell_order env symbol current_price then
              { acc1 with
                trades := log_trade env symbol "SELL" current_price
                  info.quantity acc1.trades
                holdings := eraseKey symbol acc1.holdings
                sold_count := acc1.sold_count + 1 }
            else acc1
          else acc1
  else acc

/-- Embeds `TradingBot.try_to_sell`. -/
def try_to_sell (env : Env) (st : BotState) : BotState :=
  if st.holdings.isEmpty then st
  else
    let r := st.holdings.foldl (try_to_sell_step env)
      { holdings := st.holdings, trades := st.trades, cache := st.cache,
        sold_count := 0 }
    if 0 < r.sold_count then
      { st with holdings := r.holdings, trades := r.trades, cache := r.cache }
    else
      { st with trades := r.trades, cache := r.cache }

/-- Loop state of the watchlist scan. -/
structure ScanAcc where
  watchlist : List (String × WatchEntry)
  cache : CacheState CVal
  new_additions : ℕ

/-- One iteration of the `update_watchlist` loop (lines 289–307). -/
def update_watchlist_step (env : Env) (acc : ScanAcc) (symbol : String) :
    ScanAcc :=
  if containsKey symbol acc.watchlist then acc
  else
    let dr := check_drop_criteria env symbol acc.cache
    let acc1 := { acc with cache := dr.2 }
    if dr.1.1 then
      let pr := get_current_price env symbol acc1.cache
      { watchlist := insertKey symbol
          { added_date := env.nowIso, drop_detected_price := pr.1,
            status := "watching", analysis := dr.1.2 } acc1.watchlist
        cache := pr.2
        new_additions := acc1.new_additions + 1 }
    else acc1

/-- Embeds `TradingBot.update_watchlist`: filter the universe by minimum
price, analyze the eligible symbols not yet watched, and rewrite the
watchlist file only when something was added. -/
def update_watchlist (env : Env) (st : BotState) : BotState :=
  let el := filter_stocks_above_price env env.cfg.SP500_SYMBOLS st.cache
  let r := el.1.foldl (update_watchlist_step env)
    { watchlist := st.watchlist, cache := el.2, new_additions := 0 }
  if 0 < r.new_additions then
    { st with watchlist := r.watchlist, cache := r.cache }
  else
    { st with cache := r.cache }

/-- Result record of `TradingBot.get_portfolio_summary`. -/
structure PortfolioSummary where
  total_value : ℚ
  total_cost : ℚ
  profit_loss : ℚ
  profit_loss_pct : ℚ
  holdings_count : ℕ
  watchlist_count : ℕ
deriving DecidableEq

/-- Embeds `TradingBot.get_portfolio_summary` (holdings with no truthy
current price contribute to neither value nor cost). -/
def get_portfolio_summary (env : Env) (st : BotState) :
    PortfolioSummary × CacheState CVal :=
  let step := fun (acc : ℚ × ℚ × CacheState CVal) (item : String × HoldEntry) =>
    let pr := get_current_price env item.1 acc.2.2
    match pr.1 with
    | some p =>
        if p = 0 then (acc.1, acc.2.1, pr.2)
        else (acc.1 + p * item.2.quantity,
          acc.2.1 + item.2.buy_price * item.2.quantity, pr.2)
    | none => (acc.1, acc.2.1, pr.2)
  let r := st.holdings.foldl step (0, 0, st.cache)
  let profit_loss := r.1 - r.2.1
  ({ total_value := r.1
     total_cost := r.2.1
     profit_loss := profit_loss
     profit_loss_pct := if r.2.1 > 0 then profit_loss / r.2.1 * 100 else 0
     holdings_count := st.holdings.length
     watchlist_count := st.watchlist.length }, r.2.2)

/-- The five top-level operations of `TradingBot.run_cycle`. -/
inductive CyclePhase where
  | clearExpired
  | updateWatchlist
  | tryToBuy
  | tryToSell
  | portfolioSummary
deriving DecidableEq

/-- Embeds `TradingBot.run_cycle` (lines 492–518).  The cache sweep at line
497 runs first, before the try block containing the three passes and the
summary.  The returned phase list records the five operations in the order
this definition executes them (the trailing `get_cache_stats` call only
feeds a log line and has no state effect). -/
def run_cycle (env : Env) (st : BotState) : BotState × List CyclePhase :=
  let ce := CacheManager.clear_expired env.cfg.cacheCfg env.clk st.cache
  let st1 := { st with cache := ce.2 }
  let st2 := update_watchlist env st1
  let st3 := try_to_buy env st2
  let st4 := try_to_sell env st3
  let ps := get_portfolio_summary env st4
  ({ st4 with cache := ps.2 },
    [.clearExpired, .updateWatchlist, .tryToBuy, .tryToSell, .portfolioSummary])

/-- Result record of `TradingBot.get_cache_status`. -/
structure CacheStatus where
  enabled : Bool
  stats : CacheManager.CacheStats
deriving DecidableEq

/-- Embeds `TradingBot.get_cache_status` (line 520): the `enabled` field is
the literal constant `True`. -/
def get_cache_status (clk : Clock) (st : BotState) : CacheStatus :=
  { enabled := true, stats := CacheManager.get_cache_stats clk st.cache }

/-- Follows the spec wording of entry signal (a), for comparison with the
code: "today's close did not drop more than 5% from yesterday's close" —
the drop is at most 5%, a non-strict bound. -/
def spec_signal_stabilizing (hist : Hist) : Bool :=
  decide (hist_daily_change hist ≥ -0.05)

/-- Follows the spec wording of entry signal (b): "today's volume is at
least half the 5-day average volume (evaluated only when volume data
exists)". -/
def spec_signal_volume (hist : Hist) : Bool :=
  hist.hasVolume && decide (hist_volume hist ≥ hist_avg_volume hist * 0.5)

/-- Follows the spec wording of entry signal (c): "current price is at
least 2% above the 5-day low". -/
def spec_signal_above_low (hist : Hist) : Bool :=
  decide (hist_current_price hist ≥ hist_lowest_recent hist * 1.02)

/-- Number of the three spec-worded signals that hold. -/
def spec_signal_count (hist : Hist) : ℕ :=
  (if spec_signal_stabilizing hist then 1 else 0) +
  (if spec_signal_volume hist then 1 else 0) +
  (if spec_signal_above_low hist then 1 else 0)

/-- Number of entry signals the code at lines 248–261 registers (strict
comparisons, and signal (b) additionally requires a positive average
volume). -/
def code_signal_count (hist : Hist) : ℕ :=
  (if hist_daily_change hist > -0.05 then 1 else 0) +
  (if hist_avg_volume hist > 0 ∧ hist_volume hist > hist_avg_volume hist * 0.5
   then 1 else 0) +
  (if hist_current_price hist > hist_lowest_recent hist * 1.02 then 1 else 0)

end TradingBot

/-- Apply a sequence of `set` operations (used to state persistence-policy
properties of `CacheManager.set`). -/
def apply_sets {α : Type} (clk : Clock) (l : List (String × α)) (st : CacheState α) :
    CacheState α :=
  l.foldl (fun s kv => CacheManager.set clk kv.1 kv.2 s) st

/-! ### Concrete inputs used by witnesses and counterexamples -/

/-- The default cache expiries of `config.py`: price 120 s, history 1800 s,
filter 600 s, 6× when the market is closed. -/
def cfgW : CacheConfig :=
  { PRICE_CACHE_EXPIRY := 120, HISTORY_CACHE_EXPIRY := 1800,
    FILTER_CACHE_EXPIRY := 600, CACHE_MARKET_CLOSED_MULTIPLIER := 6 }

/-- Wednesday 10:00 (market open), `time.time() = 1000`. -/
def clkOpenW : Clock := { weekday := 2, hour := 10, time := 1000 }

/-- Wednesday 10:02:01, just past the 120 s price expiry. -/
def clkLaterW : Clock := { weekday := 2, hour := 10, time := 1121 }

/-- The trading parameters of `config.py` over a one-symbol universe. -/
def botCfgW : BotConfig :=
  { MIN_STOCK_PRICE := 5, DROP_THRESHOLD := 3/10, PROFIT_TARGET := 1/10,
    LOOKBACK_DAYS := 7, SP500_SYMBOLS := ["AAPL"], cacheCfg := cfgW }

/-- A disabled cache manager (caching configured off). -/
def csDisabledW : CacheState CVal :=
  { enabled := false, cache := [], disk := [] }

def watchEntryW : WatchEntry :=
  { added_date := "2026-10-01T00:00:00", drop_detected_price := some 50,
    status := "watching", analysis := none }

def holdEntryW : HoldEntry :=
  { buy_price := 50, buy_date := "2026-10-02T00:00:00", quantity := 1,
    status := "holding", entry_reason := "recovery signals", original_analysis := none }

/-- A bot state in which AAPL is simultaneously watched and held. -/
def stHeldW : BotState :=
  { cache := csDisabledW, watchlist := [("AAPL", watchEntryW)],
    holdings := [("AAPL", holdEntryW)], trades := [] }

/-- Three-day history with every entry signal on: flat closes, volume at
the average, price 1/0.9 ≈ 11% above the period low. -/
def histGoodW : Hist :=
  { bars :=
      [ { date := "d1", openPrice := 100, high := 100, low := 90, close := 100,
          volume := 100 }
      , { date := "d2", openPrice := 100, high := 100, low := 90, close := 100,
          volume := 100 }
      , { date := "d3", openPrice := 100, high := 100, low := 90, close := 100,
          volume := 100 } ]
    hasVolume := true }

/-- Three-day boundary history: today's close dropped exactly 5% from
yesterday's (100 → 95), today's volume equals the 5-day average, and
today's price equals the 5-day low. -/
def histBoundaryW : Hist :=
  { bars :=
      [ { date := "d1", openPrice := 100, high := 100, low := 95, close := 100,
          volume := 100 }
      , { date := "d2", openPrice := 100, high := 100, low := 95, close := 100,
          volume := 100 }
      , { date := "d3", openPrice := 95, high := 95, low := 95, close := 95,
          volume := 100 } ]
    hasVolume := true }

/-- A two-day history — below the three rows the entry analysis needs. -/
def histShortW : Hist :=
  { bars :=
      [ { date := "d1", openPrice := 100, high := 100, low := 95, close := 100,
          volume := 100 }
      , { date := "d2", openPrice := 100, high := 100, low := 95, close := 100,
          volume := 100 } ]
    hasVolume := true }

/-- Environment whose trading client rejects every order, with price and
history data available. -/
def envBuyFailW : Env :=
  { cfg := botCfgW, clk := clkOpenW, nowIso := "2026-10-12T10:00:00",
    dataPrice := fun _ => some 100, dataHistory := fun _ _ => some histGoodW,
    hasTradingClient := true, buyOk := fun _ => false, sellOk := fun _ => false }

/-- A buy-pass loop state holding one watched symbol and nothing else. -/
def buyAccW : TradingBot.BuyAcc :=
  { watchlist := [("AAPL", watchEntryW)], holdings := [], trades := [],
    cache := csDisabledW, bought_count := 0 }

/-- An enabled, empty cache manager over `ℕ` values. -/
def csEmptyNW : CacheState ℕ := { enabled := true, cache := [], disk := [] }

/-- Ten consecutive insertions: nine distinct keys, then an overwrite of
the first key as the tenth insertion. -/
def setSeqW : List (String × ℕ) :=
  [("k1", 1), ("k2", 2), ("k3", 3), ("k4", 4), ("k5", 5), ("k6", 6), ("k7", 7),
   ("k8", 8), ("k9", 9), ("k1", 10)]

/-- Ten distinct keys inserted in sequence. -/
def setSeqDistinctW : List (String × ℕ) :=
  [("k0", 0), ("k1", 1), ("k2", 2), ("k3", 3), ("k4", 4), ("k5", 5), ("k6", 6),
   ("k7", 7), ("k8", 8), ("k9", 9)]

/-- A cache manager that is disabled yet holds an entry — the state the
disabled-mode claim implicitly quantifies over when it says every operation
"checks the disabled flag". -/
def csDisabledDirtyW : CacheState ℕ :=
  { enabled := false, cache := [("price:AAPL:", { data := 1, timestamp := 0 })],
    disk := [] }

/-- An enabled cache whose disk copy is in sync, used to observe that
`clear_symbol` does not persist. -/
def csSymW : CacheState ℕ :=
  { enabled := true, cache := [("price:AAPL:", { data := 1, timestamp := 0 })],
    disk := [("price:AAPL:", { data := 1, timestamp := 0 })] }

/-- An enabled cache holding one fresh price entry written at `t = 1000`. -/
def csFreshNW : CacheState ℕ :=
  { enabled := true, cache := [("price:AAPL:", { data := 42, timestamp := 1000 })],
    disk := [] }

/-- A trivial environment over an empty universe and a disabled cache. -/
def envTrivW : Env :=
  { cfg := { botCfgW with SP500_SYMBOLS := [] }, clk := clkOpenW,
    nowIso := "2026-10-12T10:00:00", dataPrice := fun _ => none,
    dataHistory := fun _ _ => none, hasTradingClient := false,
    buyOk := fun _ => true, sellOk := fun _ => true }

/-- The empty bot state. -/
def stEmptyW : BotState :=
  { cache := csDisabledW, watchlist := [], holdings := [], trades := [] }

/-! ### Association-list lemmas -/

@[simp] theorem lookupKey_nil {β : Type} (k : String) :
    lookupKey k ([] : List (String × β)) = none := rfl

@[simp] theorem lookupKey_cons {β : Type} (k j : String) (v : β) (t : List (String × β)) :
    lookupKey k ((j, v) :: t) = if j = k then some v else lookupKey k t := rfl

@[simp] theorem keysOf_nil {β : Type} : keysOf ([] : List (String × β)) = [] := rfl

@[simp] theorem keysOf_cons {β : Type} (j : String) (v : β) (t : List (String × β)) :
    keysOf ((j, v) :: t) = j :: keysOf t := rfl

@[simp] theorem containsKey_nil {β : Type} (k : String) :
    containsKey k ([] : List (String × β)) = false := rfl

theorem containsKey_cons {β : Type} (k j : String) (v : β) (t : List (String × β)) :
    containsKey k ((j, v) :: t) = if j = k then true else containsKey k t := by
  by_cases h : j = k <;> simp [containsKey, lookupKey, h]

theorem containsKey_eq_false {β : Type} {k : String} {l : List (String × β)} :
    containsKey k l = false ↔ lookupKey k l = none := by
  cases h : lookupKey k l <;> simp [containsKey, h]

theorem mem_keysOf_iff {β : Type} {k : String} :
    ∀ {l : List (String × β)}, k ∈ keysOf l ↔ containsKey k l = true := by
  intro l
  induction l with
  | nil => simp
  | cons p t ih =>
      obtain ⟨j, w⟩ := p
      by_cases hj : j = k
      · subst hj; simp [containsKey_cons]
      · simp [containsKey_cons, hj, Ne.symm hj, ih]

theorem lookupKey_insertKey_self {β : Type} (k : String) (v : β) :
    ∀ l : List (String × β), lookupKey k (insertKey k v l) = some v := by
  intro l
  induction l with
  | nil => simp [insertKey]
  | cons p t ih =>
      obtain ⟨j, w⟩ := p
      by_cases h : j = k
      · simp [insertKey, h]
      · simp [insertKey, h, ih]

theorem lookupKey_insertKey_ne {β : Type} {k j : String} (h : j ≠ k) (v : β) :
    ∀ l : List (String × β), lookupKey k (insertKey j v l) = lookupKey k l := by
  intro l
  induction l with
  | nil => simp [insertKey, h]
  | cons p t ih =>
      obtain ⟨i, w⟩ := p
      by_cases hi : i = j
      · subst hi; simp [insertKey, h]
      · simp [insertKey, hi, ih]

theorem lookupKey_eraseKey_ne {β : Type} {k j : String} (h : j ≠ k) :
    ∀ l : List (String × β), lookupKey k (eraseKey j l) = lookupKey k l := by
  intro l
  induction l with
  | nil => simp [eraseKey]
  | cons p t ih =>
      obtain ⟨i, w⟩ := p
      by_cases hi : i = j
      · subst hi; simp [eraseKey, h]
      · simp [eraseKey, hi, ih]

theorem insertKey_of_not_contains {β : Type} {k : String} (v : β) :
    ∀ {l : List (String × β)}, containsKey k l = false → insertKey k v l = l ++ [(k, v)] := by
  intro l
  induction l with
  | nil => intro _; rfl
  | cons p t ih =>
      obtain ⟨j, w⟩ := p
      intro h
      by_cases hj : j = k
      · exfalso
        simp [containsKey_cons, hj] at h
      · rw [containsKey_cons, if_neg hj] at h
        simp [insertKey, hj, ih h]

theorem length_insertKey {β : Type} (k : String) (v : β) :
    ∀ l : List (String × β),
      (insertKey k v l).length = if containsKey k l then l.length else l.length + 1 := by
  intro l
  induction l with
  | nil => simp [insertKey, containsKey, lookupKey]
  | cons p t ih =>
      obtain ⟨j, w⟩ := p
      by_cases hj : j = k
      · simp [insertKey, hj, containsKey, lookupKey]
      · simp only [insertKey, hj, if_false, List.length_cons, containsKey, lookupKey,
          if_neg hj, ih]
        by_cases hc : containsKey k t <;> simp [containsKey] at hc <;> simp [hc]

theorem keysOf_append {β : Type} (l₁ l₂ : List (String × β)) :
    keysOf (l₁ ++ l₂) = keysOf l₁ ++ keysOf l₂ := by
  simp [keysOf]

theorem countKey_insertKey_fresh_ne {β : Type} {k j : String} (h : j ≠ k) (v : β)
    (l : List (String × β)) (hj : containsKey j l = false) :
    countKey k (insertKey j v l) = countKey k l := by
  rw [insertKey_of_not_contains v hj]
  simp [countKey, keysOf_append, keysOf, List.count_append, List.count_singleton,
    h]

theorem eraseKey_sublist {β : Type} (k : String) :
    ∀ l : List (String × β), (eraseKey k l).Sublist l := by
  intro l
  induction l with
  | nil => simp [eraseKey]
  | cons p t ih =>
      obtain ⟨j, w⟩ := p
      by_cases hj : j = k
      · rw [eraseKey, if_pos hj]
        exact List.sublist_cons_self (j, w) t
      · rw [eraseKey, if_neg hj]
        exact List.Sublist.cons₂ (j, w) ih

theorem countKey_eraseKey_le {β : Type} (k j : String) (l : List (String × β)) :
    countKey k (eraseKey j l) ≤ countKey k l := by
  have h := (eraseKey_sublist j l).map (fun p => p.1)
  simp only [countKey, keysOf]
  exact h.count_le k

theorem keys_nodup_insertKey {β : Type} {k : String} (v : β) {l : List (String × β)}
    (hnd : (keysOf l).Nodup) (hk : containsKey k l = false) :
    (keysOf (insertKey k v l)).Nodup := by
  rw [insertKey_of_not_contains v hk, keysOf_append]
  have hknot : k ∉ keysOf l := by
    intro hmem
    rw [mem_keysOf_iff] at hmem
    rw [hmem] at hk
    exact Bool.noConfusion hk
  show (keysOf l ++ [k]).Nodup
  exact hnd.append (List.nodup_singleton k) (List.disjoint_singleton.mpr hknot)

theorem keys_nodup_eraseKey {β : Type} (k : String) {l : List (String × β)}
    (hnd : (keysOf l).Nodup) : (keysOf (eraseKey k l)).Nodup := by
  have h := (eraseKey_sublist k l).map (fun p => p.1)
  exact List.Nodup.sublist (by simpa [keysOf] using h) hnd

theorem containsKey_insertKey {β : Type} (k j : String) (v : β) (l : List (String × β)) :
    containsKey k (insertKey j v l) = (containsKey k l || (j = k)) := by
  by_cases h : j = k
  · subst h
    simp [containsKey, lookupKey_insertKey_self]
  · simp [containsKey, lookupKey_insertKey_ne h, h]

theorem containsKey_append {β : Type} (k : String) (l₁ l₂ : List (String × β)) :
    containsKey k (l₁ ++ l₂) = (containsKey k l₁ || containsKey k l₂) := by
  induction l₁ with
  | nil => simp
  | cons p t ih =>
      obtain ⟨j, w⟩ := p
      by_cases hj : j = k <;> simp [containsKey_cons, hj, ih]

/-- Preservation of a predicate along a left fold. -/
theorem foldl_rel {σ τ : Type} (P : σ → Prop) (f : σ → τ → σ)
    (hstep : ∀ acc x, P acc → P (f acc x)) :
    ∀ (l : List τ) (acc : σ), P acc → P (l.foldl f acc) := by
  intro l
  induction l with
  | nil => intro acc h; exact h
  | cons x t ih => intro acc h; exact ih _ (hstep acc x h)

theorem foldl_eraseKey_cons_of_ne {β : Type} (k : String) (v : β) :
    ∀ (ks : List String) (c : List (String × β)), (∀ x ∈ ks, x ≠ k) →
      ks.foldl (fun d j => eraseKey j d) ((k, v) :: c) =
        (k, v) :: ks.foldl (fun d j => eraseKey j d) c := by
  intro ks
  induction ks with
  | nil => intro c _; rfl
  | cons j t ih =>
      intro c hne
      have hj : j ≠ k := hne j (List.mem_cons_self j t)
      have hstep : eraseKey j ((k, v) :: c) = (k, v) :: eraseKey j c := by
        rw [eraseKey, if_neg (Ne.symm hj)]
      simp only [List.foldl_cons, hstep]
      exact ih (eraseKey j c) (fun x hx => hne x (List.mem_cons_of_mem j hx))

/-- Deleting, one by one, every key of a map that satisfies a predicate on
keys is the same as filtering the map by the negated predicate. -/
theorem foldl_erase_matching_keys {β : Type} (p : String → Bool) :
    ∀ c : List (String × β),
      ((keysOf c).filter p).foldl (fun d j => eraseKey j d) c =
        c.filter (fun kv => !(p kv.1)) := by
  intro c
  induction c with
  | nil => rfl
  | cons hd t ih =>
      obtain ⟨k, v⟩ := hd
      by_cases hp : p k = true
      · have h1 : (keysOf ((k, v) :: t)).filter p = k :: (keysOf t).filter p := by
          simp [hp]
        have h2 : eraseKey k ((k, v) :: t) = t := by rw [eraseKey, if_pos rfl]
        rw [h1, List.foldl_cons]
        simp only [h2, ih]
        simp [List.filter_cons, hp]
      · have h1 : (keysOf ((k, v) :: t)).filter p = (keysOf t).filter p := by
          simp [hp]
        have hne : ∀ x ∈ (keysOf t).filter p, x ≠ k := by
          intro x hx hxk
          subst hxk
          exact hp (List.mem_filter.mp hx).2
        rw [h1, foldl_eraseKey_cons_of_ne k v _ t hne, ih]
        simp [List.filter_cons, hp]

/-! ### Claim C10 — `get_cache_status` always reports `enabled = True` -/

/-- C10: `TradingBot.get_cache_status` reports `enabled` as `True` in its
result for every bot state, regardless of whether caching is actually
configured off: the field is the literal constant and does not reflect the
cache manager's disabled mode. -/
theorem get_cache_status_always_enabled (clk : Clock) (st : BotState) :
    (TradingBot.get_cache_status clk st).enabled = true := rfl

/-! ### Claim C2 — order of operations inside `run_cycle` -/

/-- C2 counterexample: at a concrete trivial environment and the empty bot
state, the phases of `run_cycle` are not watchlist scan, buy, sell, sweep,
summary — the expired-entry sweep is not after the three passes. -/
theorem run_cycle_phase_order_counterexample :
    (TradingBot.run_cycle envTrivW stEmptyW).2 ≠
      [TradingBot.CyclePhase.updateWatchlist, TradingBot.CyclePhase.tryToBuy,
       TradingBot.CyclePhase.tryToSell, TradingBot.CyclePhase.clearExpired,
       TradingBot.CyclePhase.portfolioSummary] := by
  decide

/-- C2 amended: `run_cycle` first sweeps the cache's expired entries, then
executes the three passes in the fixed order watchlist scan, buy
evaluation, sell evaluation, and then computes the portfolio summary. -/
theorem run_cycle_sweep_first (env : Env) (st : BotState) :
    (TradingBot.run_cycle env st).2 =
      [TradingBot.CyclePhase.clearExpired, TradingBot.CyclePhase.updateWatchlist,
       TradingBot.CyclePhase.tryToBuy, TradingBot.CyclePhase.tryToSell,
       TradingBot.CyclePhase.portfolioSummary] := rfl

/-! ### Claim C9 — `clear_symbol` evicts by substring but does not persist -/

/-- C9 counterexample: on an enabled cache whose disk copy is in sync,
`clear_symbol "AAPL"` evicts the matching entry from the in-memory dict but
leaves the disk copy untouched, so it does not persist after clearing the
way `clear_all` does. -/
theorem clear_symbol_no_persist_counterexample :
    (CacheManager.clear_symbol "AAPL" csSymW).cache = [] ∧
    (CacheManager.clear_symbol "AAPL" csSymW).disk ≠
      (CacheManager.clear_symbol "AAPL" csSymW).cache := by
  constructor <;> decide

/-- C9 amended: `clear_symbol symbol` evicts exactly the cache entries
whose key contains `symbol` as a substring (the cache becomes the filter of
the old one by keys not containing `symbol`) and leaves the disk copy
unchanged — it does not persist; `clear_all` is the operation that does
persist (its disk copy becomes empty whenever caching is enabled). -/
theorem clear_symbol_filter_no_persist {α : Type} (symbol : String)
    (st : CacheState α) :
    (CacheManager.clear_symbol symbol st).cache =
      st.cache.filter (fun kv => !(CacheManager.substrOf symbol kv.1)) ∧
    (CacheManager.clear_symbol symbol st).disk = st.disk ∧
    (CacheManager.clear_all st).disk = (if st.enabled then [] else st.disk) := by
  refine ⟨?_, rfl, ?_⟩
  · exact foldl_erase_matching_keys _ st.cache
  · cases hen : st.enabled <;>
      simp [CacheManager.clear_all, CacheManager.save_cache, hen]

/-! ### Claim C8 — disabled mode -/

/-- C8 counterexample: `clear_expired` and `clear_symbol` do not check the
disabled flag.  On a disabled cache manager holding an entry, the claimed
no-op-returning-zero behavior fails: `clear_expired` reports 1 eviction and
empties the dict (every entry of a disabled cache counts as expired), and
`clear_symbol` also mutates the state. -/
theorem disabled_flag_not_checked_counterexample :
    (CacheManager.clear_expired cfgW clkOpenW csDisabledDirtyW).1 = 1 ∧
    (CacheManager.clear_expired cfgW clkOpenW csDisabledDirtyW).2.cache = [] ∧
    CacheManager.clear_symbol "AAPL" csDisabledDirtyW ≠ csDisabledDirtyW := by
  refine ⟨?_, ?_, ?_⟩ <;> decide

/-- C8 amended: with caching configured off, `get` always reports absent
and `set` is a no-op; the remaining operations (`clear_expired`,
`clear_all`, `clear_symbol`, `get_cache_stats`, `save_cache`) do not
themselves check the disabled flag, but on every reachable disabled state —
where the cache dict is empty, since `load_cache` is skipped and `set` is a
no-op — they are no-ops returning zero/empty results. -/
theorem disabled_cache_noop_amended {α : Type} (cfg : CacheConfig) (clk : Clock)
    (key cache_type symbol : String) (v : α) (st : CacheState α)
    (hdis : st.enabled = false) (hempty : st.cache = []) :
    CacheManager.get cfg clk key cache_type st = (none, st) ∧
    CacheManager.set clk key v st = st ∧
    CacheManager.clear_expired cfg clk st = (0, st) ∧
    CacheManager.clear_all st = st ∧
    CacheManager.clear_symbol symbol st = st ∧
    CacheManager.save_cache st = st ∧
    CacheManager.get_cache_stats clk st =
      { total_entries := 0, price_entries := 0, history_entries := 0,
        filter_entries := 0, other_entries := 0,
        market_open := CacheManager.is_market_hours clk } := by
  obtain ⟨en, ca, di⟩ := st
  replace hdis : en = false := hdis
  replace hempty : ca = [] := hempty
  subst hdis
  subst hempty
  refine ⟨rfl, rfl, rfl, rfl, rfl, rfl, ?_⟩
  simp [CacheManager.get_cache_stats, keysOf]

/-- C8 witness: the amended no-op equations at a concrete disabled cache. -/
theorem disabled_cache_noop_amended_witness :
    CacheManager.set clkOpenW "price:AAPL:" (CVal.price 1) csDisabledW =
      csDisabledW ∧
    CacheManager.clear_expired cfgW clkOpenW csDisabledW = (0, csDisabledW) :=
  ⟨(disabled_cache_noop_amended cfgW clkOpenW "price:AAPL:" "price" "AAPL"
      (CVal.price 1) csDisabledW rfl rfl).2.1,
   (disabled_cache_noop_amended cfgW clkOpenW "price:AAPL:" "price" "AAPL"
      (CVal.price 1) csDisabledW rfl rfl).2.2.1⟩

/-! ### Claim C7 — the persist-on-set batching policy -/

/-- Effect of one `set` on an enabled cache manager: the entry is
inserted/overwritten, and the dict is flushed to disk exactly when its size
after the write is a multiple of 10. -/
theorem set_enabled_cache {α : Type} (clk : Clock) (k : String) (v : α)
    (st : CacheState α) (hen : st.enabled = true) :
    (CacheManager.set clk k v st).cache = insertKey k ⟨v, clk.time⟩ st.cache ∧
    (CacheManager.set clk k v st).enabled = true ∧
    (CacheManager.set clk k v st).disk =
      (if (insertKey k ⟨v, clk.time⟩ st.cache).length % 10 = 0
       then insertKey k ⟨v, clk.time⟩ st.cache else st.disk) := by
  by_cases h10 : (insertKey k ⟨v, clk.time⟩ st.cache).length % 10 = 0 <;>
    simp [CacheManager.set, CacheManager.save_cache, hen, h10]

/-- Applying a sequence of `set`s with pairwise-distinct fresh keys appends
the corresponding entries in order. -/
theorem apply_sets_cache_of_fresh {α : Type} (clk : Clock) :
    ∀ (l : List (String × α)) (st : CacheState α), st.enabled = true →
      (∀ k ∈ l.map (fun kv => kv.1), containsKey k st.cache = false) →
      (l.map (fun kv => kv.1)).Nodup →
      (apply_sets clk l st).cache =
        st.cache ++ l.map (fun kv => (kv.1, (⟨kv.2, clk.time⟩ : CacheEntry α))) ∧
      (apply_sets clk l st).enabled = true := by
  intro l
  induction l with
  | nil => intro st hen _ _; exact ⟨by simp [apply_sets], hen⟩
  | cons kv t ih =>
      intro st hen hfresh hnd
      obtain ⟨k, v⟩ := kv
      have hkfresh : containsKey k st.cache = false := hfresh k (by simp)
      have hset := set_enabled_cache clk k v st hen
      have hcache1 : (CacheManager.set clk k v st).cache =
          st.cache ++ [(k, (⟨v, clk.time⟩ : CacheEntry α))] := by
        rw [hset.1, insertKey_of_not_contains _ hkfresh]
      rw [List.map_cons, List.nodup_cons] at hnd
      have hfresh2 : ∀ j ∈ t.map (fun kv => kv.1),
          containsKey j (CacheManager.set clk k v st).cache = false := by
        intro j hj
        have hjk : j ≠ k := fun hjk => hnd.1 (hjk ▸ hj)
        rw [hcache1, containsKey_append]
        have h1 : containsKey j st.cache = false := hfresh j (by simp [hj])
        have h2 : containsKey j [(k, (⟨v, clk.time⟩ : CacheEntry α))] = false := by
          simp [containsKey_cons, hjk, Ne.symm hjk]
        simp [h1, h2]
      have happ : apply_sets clk ((k, v) :: t) st =
          apply_sets clk t (CacheManager.set clk k v st) := by
        simp [apply_sets]
      have hrec := ih (CacheManager.set clk k v st) hset.2.1 hfresh2 hnd.2
      rw [happ]
      refine ⟨?_, hrec.2⟩
      rw [hrec.1, hcache1]
      simp

/-- C7 counterexample: ten consecutive insertions into an enabled, empty
cache — nine distinct keys, then an overwrite of the first key as the tenth
insertion.  The tenth insertion triggers no persist: the disk copy is still
empty although the dict holds nine entries. -/
theorem tenth_insertion_no_persist_counterexample :
    (apply_sets clkOpenW setSeqW csEmptyNW).disk = [] ∧
    (apply_sets clkOpenW setSeqW csEmptyNW).cache ≠ [] := by
  constructor <;> decide

/-- C7 amended: the persist-on-set side effect fires exactly when the
number of entries in the dict after the write is a multiple of 10 — which
coincides with "every 10th insertion" only while no insertion overwrites an
existing key.  In particular, starting from an enabled empty cache and
writing pairwise-distinct keys, a sequence whose length is a positive
multiple of 10 ends with a persist (disk equals the dict). -/
theorem set_persist_on_multiple_of_ten {α : Type} (clk : Clock)
    (l : List (String × α)) (st : CacheState α) (hen : st.enabled = true)
    (hempty : st.cache = []) (hnd : (l.map (fun kv => kv.1)).Nodup)
    (hne : l ≠ []) (hlen : l.length % 10 = 0) :
    (∀ (k : String) (v : α) (s : CacheState α), s.enabled = true →
      (CacheManager.set clk k v s).disk =
        (if (insertKey k ⟨v, clk.time⟩ s.cache).length % 10 = 0
         then insertKey k ⟨v, clk.time⟩ s.cache else s.disk)) ∧
    (apply_sets clk l st).disk = (apply_sets clk l st).cache := by
  refine ⟨fun k v s hs => (set_enabled_cache clk k v s hs).2.2, ?_⟩
  rcases List.eq_nil_or_concat' l with rfl | ⟨L, b, rfl⟩
  · exact absurd rfl hne
  · obtain ⟨bk, bv⟩ := b
    rw [List.map_append, List.nodup_append] at hnd
    have hndL : (L.map (fun kv => kv.1)).Nodup := hnd.1
    have hfreshL : ∀ k ∈ L.map (fun kv => kv.1), containsKey k st.cache = false := by
      intro k _; rw [hempty]; rfl
    have hL := apply_sets_cache_of_fresh clk L st hen hfreshL hndL
    have hcacheL : (apply_sets clk L st).cache =
        L.map (fun kv => (kv.1, (⟨kv.2, clk.time⟩ : CacheEntry α))) := by
      rw [hL.1, hempty, List.nil_append]
    have hbk_not_mem : bk ∉ L.map (fun kv => kv.1) := by
      intro hmem
      exact hnd.2.2 hmem (by simp)
    have hbk_fresh : containsKey bk (apply_sets clk L st).cache = false := by
      cases hc : containsKey bk (apply_sets clk L st).cache
      · rfl
      · exfalso
        have hmem := mem_keysOf_iff.mpr hc
        rw [hcacheL] at hmem
        simp only [keysOf, List.map_map] at hmem
        exact hbk_not_mem (by simpa using hmem)
    have happ : apply_sets clk (L ++ [(bk, bv)]) st =
        CacheManager.set clk bk bv (apply_sets clk L st) := by
      simp [apply_sets, List.foldl_append]
    have hset := set_enabled_cache clk bk bv (apply_sets clk L st) hL.2
    have hlenL : (apply_sets clk L st).cache.length = L.length := by
      rw [hcacheL]; simp
    have hlength : (insertKey bk ⟨bv, clk.time⟩
        (apply_sets clk L st).cache).length % 10 = 0 := by
      rw [insertKey_of_not_contains _ hbk_fresh]
      simp only [List.length_append, List.length_singleton, hlenL]
      simpa using hlen
    rw [happ, hset.2.2, if_pos hlength, hset.1]

/-- C7 witness: ten distinct keys inserted into an enabled empty cache end
with a persist. -/
theorem set_persist_on_multiple_of_ten_witness :
    (apply_sets clkOpenW setSeqDistinctW csEmptyNW).disk =
      (apply_sets clkOpenW setSeqDistinctW csEmptyNW).cache :=
  (set_persist_on_multiple_of_ten clkOpenW setSeqDistinctW csEmptyNW rfl rfl
    (by decide) (by decide) (by decide)).2

/-! ### Claims C3 and C4 — cache expiry behavior and round trip -/

/-- On an enabled manager, an entry within the market-adjusted expiry
window is not expired. -/
theorem is_expired_eq_false_of_fresh {α : Type} (cfg : CacheConfig) (clk : Clock)
    (st : CacheState α) (ts : ℚ) (ty : String) (hen : st.enabled = true)
    (hfresh : clk.time - ts ≤
      (if CacheManager.is_market_hours clk then CacheManager.expiry_base cfg ty
       else CacheManager.expiry_base cfg ty * cfg.CACHE_MARKET_CLOSED_MULTIPLIER)) :
    CacheManager.is_expired cfg clk st ts ty = false := by
  rw [CacheManager.is_expired, if_neg (by simp [hen])]
  simp only [decide_eq_false_iff_not, not_lt]
  exact hfresh

/-- On an enabled manager, an entry beyond the market-adjusted expiry
window is expired. -/
theorem is_expired_eq_true_of_stale {α : Type} (cfg : CacheConfig) (clk : Clock)
    (st : CacheState α) (ts : ℚ) (ty : String) (hen : st.enabled = true)
    (hstale : clk.time - ts >
      (if CacheManager.is_market_hours clk then CacheManager.expiry_base cfg ty
       else CacheManager.expiry_base cfg ty * cfg.CACHE_MARKET_CLOSED_MULTIPLIER)) :
    CacheManager.is_expired cfg clk st ts ty = true := by
  rw [CacheManager.is_expired, if_neg (by simp [hen])]
  simp only [decide_eq_true_eq]
  exact hstale

/-- C3: for a key present in an enabled cache with write time `t0`, `get`
computes the expiry as the category's base expiry multiplied by the
market-closed multiplier exactly when the market-hours predicate is false;
it returns the stored value when `now - t0 ≤ expiry`, and when
`now - t0 > expiry` it returns absent and deletes that entry; an
unrecognized category uses the price expiry. -/
theorem cache_get_expiry_behavior {α : Type} (cfg : CacheConfig) (clk : Clock)
    (key cache_type : String) (st : CacheState α) (entry : CacheEntry α)
    (hen : st.enabled = true) (hlook : lookupKey key st.cache = some entry) :
    (clk.time - entry.timestamp ≤
        (if CacheManager.is_market_hours clk then CacheManager.expiry_base cfg cache_type
         else CacheManager.expiry_base cfg cache_type * cfg.CACHE_MARKET_CLOSED_MULTIPLIER) →
      CacheManager.get cfg clk key cache_type st = (some entry.data, st)) ∧
    (clk.time - entry.timestamp >
        (if CacheManager.is_market_hours clk then CacheManager.expiry_base cfg cache_type
         else CacheManager.expiry_base cfg cache_type * cfg.CACHE_MARKET_CLOSED_MULTIPLIER) →
      CacheManager.get cfg clk key cache_type st =
        (none, { st with cache := eraseKey key st.cache })) ∧
    (cache_type ∉ (["price", "history", "filter"] : List String) →
      CacheManager.expiry_base cfg cache_type = cfg.PRICE_CACHE_EXPIRY) := by
  refine ⟨?_, ?_, ?_⟩
  · intro hfresh
    have he := is_expired_eq_false_of_fresh cfg clk st entry.timestamp cache_type hen hfresh
    simp [CacheManager.get, hen, hlook, he]
  · intro hstale
    have he := is_expired_eq_true_of_stale cfg clk st entry.timestamp cache_type hen hstale
    simp [CacheManager.get, hen, hlook, he]
  · intro hmem
    have h1 : cache_type ≠ "price" := fun h => hmem (by simp [h])
    have h2 : cache_type ≠ "history" := fun h => hmem (by simp [h])
    have h3 : cache_type ≠ "filter" := fun h => hmem (by simp [h])
    simp [CacheManager.expiry_base, h1, h2, h3]

/-- C3 witness: with the default config during market hours, a price entry
written at `t = 1000` is served at `t = 1000` and evicted at `t = 1121`
(121 s > 120 s). -/
theorem cache_get_expiry_behavior_witness :
    CacheManager.get cfgW clkOpenW "price:AAPL:" "price" csFreshNW =
      (some 42, csFreshNW) ∧
    CacheManager.get cfgW clkLaterW "price:AAPL:" "price" csFreshNW =
      (none, { csFreshNW with cache := eraseKey "price:AAPL:" csFreshNW.cache }) :=
  ⟨(cache_get_expiry_behavior cfgW clkOpenW "price:AAPL:" "price" csFreshNW
      ⟨42, 1000⟩ rfl rfl).1
      (by norm_num [CacheManager.is_market_hours, CacheManager.expiry_base, cfgW,
        clkOpenW]),
   (cache_get_expiry_behavior cfgW clkLaterW "price:AAPL:" "price" csFreshNW
      ⟨42, 1000⟩ rfl rfl).2.1
      (by norm_num [CacheManager.is_market_hours, CacheManager.expiry_base, cfgW,
        clkLaterW])⟩

/-- C4: with caching enabled, `set key v` followed by `get key category`
within the category's market-adjusted expiry window returns `v` unchanged,
for every stored value type and value. -/
theorem cache_set_get_roundtrip {α : Type} (cfg : CacheConfig)
    (clkSet clkGet : Clock) (key cache_type : String) (v : α) (st : CacheState α)
    (hen : st.enabled = true)
    (hfresh : clkGet.time - clkSet.time ≤
      (if CacheManager.is_market_hours clkGet then CacheManager.expiry_base cfg cache_type
       else CacheManager.expiry_base cfg cache_type * cfg.CACHE_MARKET_CLOSED_MULTIPLIER)) :
    (CacheManager.get cfg clkGet key cache_type
      (CacheManager.set clkSet key v st)).1 = some v := by
  have hset := set_enabled_cache clkSet key v st hen
  have hlook : lookupKey key (CacheManager.set clkSet key v st).cache =
      some ⟨v, clkSet.time⟩ := by
    rw [hset.1]
    exact lookupKey_insertKey_self key _ st.cache
  have he := is_expired_eq_false_of_fresh cfg clkGet (CacheManager.set clkSet key v st)
    clkSet.time cache_type hset.2.1 hfresh
  simp [CacheManager.get, hset.2.1, hlook, he]

/-- C4 witness: an immediate round trip through an enabled empty cache. -/
theorem cache_set_get_roundtrip_witness :
    (CacheManager.get cfgW clkOpenW "price:AAPL:" "price"
      (CacheManager.set clkOpenW "price:AAPL:" 42 csEmptyNW)).1 = some 42 :=
  cache_set_get_roundtrip cfgW clkOpenW clkOpenW "price:AAPL:" "price" 42 csEmptyNW
    rfl
    (by norm_num [CacheManager.is_market_hours, CacheManager.expiry_base, cfgW,
      clkOpenW])

/-! ### Claim C6 — entry-signal scoring -/

/-- C6 counterexample: on the boundary history (today's close down exactly
5%, volume exactly at the average, price exactly at the period low), two of
the three signals as the spec words them hold — so the claim authorizes
entry — but the code registers only one signal (its comparisons are strict)
and does not enter. -/
theorem entry_signal_boundary_counterexample :
    TradingBot.spec_signal_count histBoundaryW = 2 ∧
    (TradingBot.analyze_entry_core (some histBoundaryW)).1 = false := by
  have hcur : TradingBot.hist_current_price histBoundaryW = 95 := by decide
  have hprev : TradingBot.hist_prev_close histBoundaryW = 100 := by decide
  have hvol : TradingBot.hist_volume histBoundaryW = 100 := by decide
  have hlow : TradingBot.hist_lowest_recent histBoundaryW = 95 := by decide
  have havg : TradingBot.hist_avg_volume histBoundaryW = 100 := by
    norm_num [TradingBot.hist_avg_volume, histBoundaryW]
  have hdc : TradingBot.hist_daily_change histBoundaryW = -(1/20) := by
    rw [TradingBot.hist_daily_change, hcur, hprev]; norm_num
  constructor
  · have s1 : TradingBot.spec_signal_stabilizing histBoundaryW = true := by
      rw [TradingBot.spec_signal_stabilizing, hdc]; norm_num
    have s2 : TradingBot.spec_signal_volume histBoundaryW = true := by
      rw [TradingBot.spec_signal_volume, hvol, havg]
      norm_num [histBoundaryW]
    have s3 : TradingBot.spec_signal_above_low histBoundaryW = false := by
      rw [TradingBot.spec_signal_above_low, hcur, hlow]; norm_num
    rw [TradingBot.spec_signal_count, s1, s2, s3]
    norm_num
  · have h1 : ¬ (TradingBot.hist_daily_change histBoundaryW > -0.05) := by
      rw [hdc]; norm_num
    have h2 : TradingBot.hist_avg_volume histBoundaryW > 0 ∧
        TradingBot.hist_volume histBoundaryW >
          TradingBot.hist_avg_volume histBoundaryW * 0.5 := by
      rw [havg, hvol]; norm_num
    have h3 : ¬ (TradingBot.hist_current_price histBoundaryW >
        TradingBot.hist_lowest_recent histBoundaryW * 1.02) := by
      rw [hcur, hlow]; norm_num
    have hreasons : TradingBot.entry_reasons histBoundaryW = ["decent_volume"] := by
      rw [TradingBot.entry_reasons]
      simp [h1, h2, h3]
    have hlen : ¬ histBoundaryW.bars.length < 3 := by decide
    simp [TradingBot.analyze_entry_core, hlen, hreasons]

/-- C6 amended: the entry analysis reports insufficient recent data (and
does not enter) when there is no history or fewer than 3 rows; with at
least 3 rows, entry is authorized exactly when at least 2 of the three code
signals hold, where the signals use strict comparisons: (a) today's change
over yesterday's close is strictly above −5%, (b) the average volume is
positive and today's volume strictly exceeds half of it, (c) the current
price strictly exceeds 1.02 times the period low. -/
theorem entry_signal_strict_characterization (h : Hist) :
    TradingBot.analyze_entry_core none = (false, "Insufficient recent data") ∧
    (h.bars.length < 3 →
      TradingBot.analyze_entry_core (some h) = (false, "Insufficient recent data")) ∧
    (3 ≤ h.bars.length →
      ((TradingBot.analyze_entry_core (some h)).1 = true ↔
        2 ≤ TradingBot.code_signal_count h)) := by
  refine ⟨rfl, ?_, ?_⟩
  · intro hlen
    simp [TradingBot.analyze_entry_core, hlen]
  · intro hlen
    have hnlt : ¬ h.bars.length < 3 := not_lt.mpr hlen
    have hcount : (TradingBot.entry_reasons h).length =
        TradingBot.code_signal_count h := by
      rw [TradingBot.entry_reasons, TradingBot.code_signal_count]
      by_cases c1 : TradingBot.hist_daily_change h > -0.05 <;>
        by_cases c2 : TradingBot.hist_avg_volume h > 0 ∧
          TradingBot.hist_volume h > TradingBot.hist_avg_volume h * 0.5 <;>
        by_cases c3 : TradingBot.hist_current_price h >
          TradingBot.hist_lowest_recent h * 1.02 <;>
        simp [c1, c2, c3]
    simp [TradingBot.analyze_entry_core, hnlt, hcount]

/-- C6 witness: the strict characterization at a two-row history and at the
boundary history. -/
theorem entry_signal_strict_characterization_witness :
    (TradingBot.analyze_entry_core (some histShortW) =
      (false, "Insufficient recent data")) ∧
    ((TradingBot.analyze_entry_core (some histBoundaryW)).1 = true ↔
      2 ≤ TradingBot.code_signal_count histBoundaryW) :=
  ⟨(entry_signal_strict_characterization histShortW).2.1 (by decide),
   (entry_signal_strict_characterization histBoundaryW).2.2 (by decide)⟩

/-! ### Claim C5 — order-submission failure leaves the state untouched -/

/-- C5: if the order submission for a symbol fails, the buy-pass iteration
for that symbol leaves the pass state exactly as before the attempt: the
watchlist entry stays, no holdings entry is created, no BUY trade record is
appended (and the buy counter does not move). -/
theorem buy_order_failure_leaves_state (env : Env) (acc : TradingBot.BuyAcc)
    (symbol : String) (info : WatchEntry)
    (hfail : ∀ p : ℚ, TradingBot.execute_buy_order env symbol p = false) :
    (TradingBot.try_to_buy_step env acc (symbol, info)).watchlist =
      acc.watchlist ∧
    (TradingBot.try_to_buy_step env acc (symbol, info)).holdings =
      acc.holdings ∧
    (TradingBot.try_to_buy_step env acc (symbol, info)).trades = acc.trades ∧
    (TradingBot.try_to_buy_step env acc (symbol, info)).bought_count =
      acc.bought_count := by
  rw [TradingBot.try_to_buy_step]
  simp only [hfail, Bool.and_false]
  split
  · split
    · exact ⟨rfl, rfl, rfl, rfl⟩
    · split
      · exact ⟨rfl, rfl, rfl, rfl⟩
      · split
        · exact ⟨rfl, rfl, rfl, rfl⟩
        · simp
  · exact ⟨rfl, rfl, rfl, rfl⟩

/-- C5 witness: a rejected order at a concrete watching symbol with data
available (entry would otherwise be authorized). -/
theorem buy_order_failure_leaves_state_witness :
    (TradingBot.try_to_buy_step envBuyFailW buyAccW ("AAPL", watchEntryW)).watchlist =
      buyAccW.watchlist ∧
    (TradingBot.try_to_buy_step envBuyFailW buyAccW ("AAPL", watchEntryW)).holdings =
      buyAccW.holdings ∧
    (TradingBot.try_to_buy_step envBuyFailW buyAccW ("AAPL", watchEntryW)).trades =
      buyAccW.trades ∧
    (TradingBot.try_to_buy_step envBuyFailW buyAccW ("AAPL", watchEntryW)).bought_count =
      buyAccW.bought_count :=
  buy_order_failure_leaves_state envBuyFailW buyAccW "AAPL" watchEntryW
    (fun _ => rfl)

/-! ### Claim C1 — the buy pass never duplicates a held symbol -/

/-- One buy-pass iteration leaves a held symbol's state intact: `s` stays
held, its watchlist entry is untouched, its holdings multiplicity is
unchanged, and key uniqueness of the holdings is preserved. -/
theorem try_to_buy_step_held_intact (env : Env) (s : String)
    (item : String × WatchEntry) (acc : TradingBot.BuyAcc)
    (hheld : containsKey s acc.holdings = true) :
    containsKey s (TradingBot.try_to_buy_step env acc item).holdings = true ∧
    lookupKey s (TradingBot.try_to_buy_step env acc item).watchlist =
      lookupKey s acc.watchlist ∧
    countKey s (TradingBot.try_to_buy_step env acc item).holdings =
      countKey s acc.holdings ∧
    ((keysOf acc.holdings).Nodup →
      (keysOf (TradingBot.try_to_buy_step env acc item).holdings).Nodup) := by
  obtain ⟨t, info⟩ := item
  simp only [TradingBot.try_to_buy_step]
  split
  · split
    · exact ⟨hheld, rfl, rfl, fun h => h⟩
    · rename_i hfresh
      have hfresh2 : containsKey t acc.holdings = false := by
        simpa using hfresh
      have hts : t ≠ s := by
        intro hts
        rw [hts, hheld] at hfresh2
        exact Bool.noConfusion hfresh2
      split
      · exact ⟨hheld, rfl, rfl, fun h => h⟩
      · split
        · exact ⟨hheld, rfl, rfl, fun h => h⟩
        · split
          · refine ⟨?_, ?_, ?_, ?_⟩
            · rw [containsKey_insertKey]
              simp [hheld]
            · exact lookupKey_eraseKey_ne hts acc.watchlist
            · exact countKey_insertKey_fresh_ne hts _ acc.holdings hfresh2
            · intro h
              exact keys_nodup_insertKey _ h hfresh2
          · exact ⟨hheld, rfl, rfl, fun h => h⟩
  · exact ⟨hheld, rfl, rfl, fun h => h⟩

/-- C1: if a symbol `s` is already present in the holdings when the buy
pass runs, the pass skips `s` without removing its watchlist entry and
never creates a second holdings entry for `s`; and whenever the holdings
keys were unique before the pass they remain unique after it, so each
symbol appears in the holdings at most once. -/
theorem try_to_buy_no_second_holding (env : Env) (st : BotState) (s : String)
    (hheld : containsKey s st.holdings = true) :
    lookupKey s (TradingBot.try_to_buy env st).watchlist =
      lookupKey s st.watchlist ∧
    countKey s (TradingBot.try_to_buy env st).holdings =
      countKey s st.holdings ∧
    ((keysOf st.holdings).Nodup →
      (keysOf (TradingBot.try_to_buy env st).holdings).Nodup) := by
  simp only [TradingBot.try_to_buy]
  split
  · exact ⟨rfl, rfl, fun h => h⟩
  · have hinv := foldl_rel
      (fun acc : TradingBot.BuyAcc =>
        containsKey s acc.holdings = true ∧
        lookupKey s acc.watchlist = lookupKey s st.watchlist ∧
        countKey s acc.holdings = countKey s st.holdings ∧
        ((keysOf st.holdings).Nodup → (keysOf acc.holdings).Nodup))
      (TradingBot.try_to_buy_step env)
      (fun acc x hacc =>
        have hs := try_to_buy_step_held_intact env s x acc hacc.1
        ⟨hs.1, hs.2.1.trans hacc.2.1, hs.2.2.1.trans hacc.2.2.1,
          fun hnd => hs.2.2.2 (hacc.2.2.2 hnd)⟩)
      st.watchlist
      { watchlist := st.watchlist, holdings := st.holdings, trades := st.trades,
        cache := st.cache, bought_count := 0 }
      ⟨hheld, rfl, rfl, fun h => h⟩
    split
    · exact ⟨hinv.2.1, hinv.2.2.1, hinv.2.2.2⟩
    · exact ⟨rfl, rfl, fun h => h⟩

/-- C1 witness: a state in which AAPL is simultaneously watched and held,
processed by a buy pass with live data. -/
theorem try_to_buy_no_second_holding_witness :
    lookupKey "AAPL" (TradingBot.try_to_buy envBuyFailW stHeldW).watchlist =
      lookupKey "AAPL" stHeldW.watchlist ∧
    countKey "AAPL" (TradingBot.try_to_buy envBuyFailW stHeldW).holdings =
      countKey "AAPL" stHeldW.holdings ∧
    ((keysOf stHeldW.holdings).Nodup →
      (keysOf (TradingBot.try_to_buy envBuyFailW stHeldW).holdings).Nodup) :=
  try_to_buy_no_second_holding envBuyFailW stHeldW "AAPL" rfl

end AlpacaBot
